import Mathlib

/-!
Verification development for the contract-analysis backend.

The definitions below are a shallow embedding of the two source files that
carry the analysis core:

* `app/services/ai_advisor.py` — `analyze_contract`: category dispatch,
  engine job lifecycle (upload, thread creation, run-and-poll, result
  retrieval), regex-based result sanitization, error wrapping, and the
  `finally`-block artifact deletion.
* `app/routers/general.py` — `_process_analysis`: the gatekeeper JSON check,
  title/summary selection, risk-level derivation by literal substring scan,
  persistence outcome and the HTTP error surface.

Python strings are modelled as `List Char` / `String`; the external engine
and the environment-variable assistant table are explicit parameters; each
fallible engine step of the `try` block is represented by an `Option String`
exception slot.  Regex operations are modelled character-by-character after
the exact patterns in the source (see the doc comments of each function).
Python's `re` module whitespace class and `str.strip` are modelled on their
ASCII subset, which is the only part the analysed strings exercise.
-/

set_option maxRecDepth 4000

namespace Back

/-- ASCII subset of Python's `\s` class and of the characters removed by
`str.strip`: space, tab, newline, carriage return, vertical tab, form feed. -/
def pyWs (c : Char) : Bool :=
  c = ' ' || c = '\t' || c = '\n' || c = '\r' || c = '\x0b' || c = '\x0c'

/-- Drop the maximal leading run of whitespace characters. -/
def dropLeadWs : List Char → List Char
  | [] => []
  | c :: r => if pyWs c then dropLeadWs r else c :: r

/-- Python `str.strip()`: remove leading and trailing whitespace. -/
def stripL (l : List Char) : List Char :=
  (dropLeadWs (dropLeadWs l).reverse).reverse

/-- Does the list start with a whitespace character? -/
def wsStarts : List Char → Bool
  | [] => false
  | c :: _ => pyWs c

/-- Is the maximal leading whitespace run nonempty with `'\n'` as its last
character?  Used to know whether a regex match ending in that run leaves the
scanner at a line start. -/
def wsRunEndsNl : List Char → Bool
  | [] => false
  | c :: r => if pyWs c then (if wsStarts r then wsRunEndsNl r else c = '\n') else false

/-- Consume an exact literal; `some rest` on success. -/
def dropLit : List Char → List Char → Option (List Char)
  | [], l => some l
  | _ :: _, [] => none
  | p :: ps, c :: cs => if c = p then dropLit ps cs else none

/-- The literal `"```json"` (written with `\x60` for the backtick). -/
def fenceHead : List Char := ['\x60', '\x60', '\x60', 'j', 's', 'o', 'n']

/-- The literal `"```"`. -/
def fenceTail : List Char := ['\x60', '\x60', '\x60']

/-- `re.MULTILINE` `$`: end of string or just before a `'\n'`. -/
def lineEndAt : List Char → Bool
  | [] => true
  | c :: _ => c = '\n'

/-- Attempt of the first alternative `^```json\s*` of the fence regex at the
current position.  `atStart` says whether `^` holds here (string start or
preceded by `'\n'`).  On success returns the rest of the input together with
whether the last consumed character was `'\n'` (line-start flag for the next
position).  The trailing `\s*` is greedy and has nothing after it, so it
always takes the maximal whitespace run. -/
def matchFenceOpen (l : List Char) (atStart : Bool) : Option (List Char × Bool) :=
  if atStart then
    match dropLit fenceHead l with
    | some r => some (dropLeadWs r, wsRunEndsNl r)
    | none => none
  else none

/-- Attempt of the second alternative `\s*```$` of the fence regex at the
current position.  A backtick is not whitespace, so backtracking of the
greedy `\s*` can only succeed at the full whitespace run. -/
def matchFenceClose (l : List Char) : Option (List Char) :=
  match dropLit fenceTail (dropLeadWs l) with
  | some r => if lineEndAt r then some r else none
  | none => none

/-- One left-to-right pass of
`re.sub(r"^```json\s*|\s*```$", "", text, flags=re.MULTILINE)`:
at each position try the first alternative, then the second, else copy one
character.  Neither alternative matches the empty string, so Python's
empty-match behaviour never comes into play.  `fuel` bounds the recursion;
every step consumes at least one character, so `length + 1` is enough. -/
def stripFencesAux : Nat → List Char → Bool → List Char
  | 0, l, _ => l
  | _ + 1, [], _ => []
  | fuel + 1, c :: rest, atStart =>
    match matchFenceOpen (c :: rest) atStart with
    | some (r, nl) => stripFencesAux fuel r nl
    | none =>
      match matchFenceClose (c :: rest) with
      | some r => stripFencesAux fuel r false
      | none => c :: stripFencesAux fuel rest (c = '\n')

/-- Step (1) of the sanitizer:
`re.sub(r"^```json\s*|\s*```$", "", raw_text.strip(), flags=re.MULTILINE)`
without the outer `strip` (applied separately). -/
def stripFencesL (l : List Char) : List Char :=
  stripFencesAux (l.length + 1) l true

/-- Index of the first `'】'` reachable without crossing a `'\n'`; this is
what the non-greedy `.*?` of `re.sub(r"【.*?】", "", s)` scans over (`.`
does not match a newline). -/
def findCloseIdx : List Char → Option Nat
  | [] => none
  | c :: r =>
    if c = '】' then some 0
    else if c = '\n' then none
    else (findCloseIdx r).map (· + 1)

/-- One pass of `re.sub(r"【.*?】", "", s)`: at each `'【'` drop through the
nearest same-line `'】'`, otherwise copy the character. -/
def removeCitationsAux : Nat → List Char → List Char
  | 0, l => l
  | _ + 1, [] => []
  | fuel + 1, c :: rest =>
    if c = '【' then
      match findCloseIdx rest with
      | some n => removeCitationsAux fuel (rest.drop (n + 1))
      | none => c :: removeCitationsAux fuel rest
    else c :: removeCitationsAux fuel rest

/-- Step (2) of the sanitizer: citation-marker removal. -/
def removeCitationsL (l : List Char) : List Char :=
  removeCitationsAux (l.length + 1) l

/-- Index of the first occurrence of a character. -/
def idxOfFirst (t : Char) : List Char → Option Nat
  | [] => none
  | c :: r => if c = t then some 0 else (idxOfFirst t r).map (· + 1)

/-- Index of the last occurrence of a character. -/
def idxOfLast (t : Char) (l : List Char) : Option Nat :=
  (idxOfFirst t l.reverse).map (fun n => l.length - 1 - n)

/-- Step (3) of the sanitizer: `re.search(r"(\{.*\})", s, re.DOTALL)` and, on
a match, replacement of the working string by group 1.  The leftmost match of
`\{.*\}` with greedy `.*` (DOTALL) spans from the first `'{'` to the last
`'}'` after it; there is no match when no `'}'` follows the first `'{'`, and
then the string is left unchanged. -/
def extractBracesL (l : List Char) : List Char :=
  match idxOfFirst '\x7b' l, idxOfLast '\x7d' l with
  | some i, some j => if i < j then (l.drop i).take (j - i + 1) else l
  | _, _ => l

/-- The sanitization transform of `analyze_contract` (lines 115–128 of
`ai_advisor.py`): strip, fence removal, citation removal, brace-span
extraction, in that order. -/
def sanitizeL (l : List Char) : List Char :=
  extractBracesL (removeCitationsL (stripFencesL (stripL l)))

/-- String-level sanitizer. -/
def sanitize (s : String) : String :=
  String.mk (sanitizeL s.data)

/-!  ## A model of `json.loads`

`_process_analysis` feeds the orchestrator's output to `json.loads`.  The
inductive `Json` and the fuelled recursive-descent parser below model the
strict-mode decoder of Python's `json` module: objects, arrays, strings with
the standard escapes, numbers (kept as their lexeme — their numeric value is
never inspected by the code under verification), the literals
`true`/`false`/`null` and the Python extensions `NaN`/`Infinity`/`-Infinity`.
Model restrictions (none of which the analysed strings exercise): `\uXXXX`
escapes in the surrogate range are rejected instead of producing lone
surrogates, and only ASCII JSON whitespace is skipped (which is in fact
exactly what `json.loads` skips). -/

/-- JSON values as produced by `json.loads`.  Objects keep their members in
source order; a duplicated key is resolved to its last occurrence by
`objGetD`, matching Python dict construction. -/
inductive Json where
  | null : Json
  | bool (b : Bool) : Json
  | num (lexeme : String) : Json
  | str (s : String) : Json
  | arr (elems : List Json) : Json
  | obj (members : List (String × Json)) : Json

/-- Python `dict.get(key, default)` on a decoded object: the value of the
last member with the given key, or the default. -/
def objGetD : List (String × Json) → String → Json → Json
  | [], _, d => d
  | (k0, v) :: rest, k, d => if k0 = k then objGetD rest k v else objGetD rest k d

/-- JSON whitespace skipped by the decoder: space, tab, newline, return. -/
def jsonWs (c : Char) : Bool :=
  c = ' ' || c = '\t' || c = '\n' || c = '\r'

/-- Drop leading JSON whitespace. -/
def dropJsonWs : List Char → List Char
  | [] => []
  | c :: r => if jsonWs c then dropJsonWs r else c :: r

/-- ASCII decimal digit. -/
def isDigit (c : Char) : Bool := '0' ≤ c && c ≤ '9'

/-- Value of a hexadecimal digit. -/
def hexVal (c : Char) : Option Nat :=
  if isDigit c then some (c.toNat - 48)
  else if 'a' ≤ c && c ≤ 'f' then some (c.toNat - 87)
  else if 'A' ≤ c && c ≤ 'F' then some (c.toNat - 55)
  else none

/-- Maximal run of decimal digits. -/
def takeDigits : List Char → List Char × List Char
  | [] => ([], [])
  | c :: r =>
    if isDigit c then
      match takeDigits r with
      | (ds, rest) => (c :: ds, rest)
    else ([], c :: r)

/-- Integer part of a JSON number: `0` or a nonzero digit followed by digits. -/
def parseIntPart : List Char → Option (List Char × List Char)
  | [] => none
  | c :: r =>
    if c = '0' then some (['0'], r)
    else if isDigit c then
      match takeDigits r with
      | (ds, rest) => some (c :: ds, rest)
    else none

/-- Optional fractional part `.digits`. -/
def parseFracPart : List Char → Option (List Char × List Char)
  | [] => some ([], [])
  | c :: r =>
    if c = '.' then
      match takeDigits r with
      | ([], _) => none
      | (ds, rest) => some ('.' :: ds, rest)
    else some ([], c :: r)

/-- Optional exponent part `[eE][+-]?digits`. -/
def parseExpPart : List Char → Option (List Char × List Char)
  | [] => some ([], [])
  | c :: r =>
    if c = 'e' || c = 'E' then
      match r with
      | [] => none
      | s :: r2 =>
        if s = '+' || s = '-' then
          match takeDigits r2 with
          | ([], _) => none
          | (ds, rest) => some (c :: s :: ds, rest)
        else
          match takeDigits r with
          | ([], _) => none
          | (ds, rest) => some (c :: ds, rest)
    else some ([], c :: r)

/-- Unsigned JSON number starting at the current position; returns the
lexeme and the rest. -/
def parseNumCore (l : List Char) : Option (List Char × List Char) :=
  match parseIntPart l with
  | none => none
  | some (i, r1) =>
    match parseFracPart r1 with
    | none => none
    | some (f, r2) =>
      match parseExpPart r2 with
      | none => none
      | some (x, r3) => some (i ++ f ++ x, r3)

/-- Body of a JSON string after the opening quote, with strict-mode escape
handling; returns the decoded characters and the rest after the closing
quote. -/
def parseStrAux : Nat → List Char → Option (List Char × List Char)
  | 0, _ => none
  | _ + 1, [] => none
  | fuel + 1, c :: r =>
    if c = '"' then some ([], r)
    else if c = '\\' then
      match r with
      | [] => none
      | e :: r2 =>
        if e = '"' || e = '\\' || e = '/' then
          match parseStrAux fuel r2 with
          | some (cs, rest) => some (e :: cs, rest)
          | none => none
        else if e = 'n' then
          match parseStrAux fuel r2 with
          | some (cs, rest) => some ('\n' :: cs, rest)
          | none => none
        else if e = 't' then
          match parseStrAux fuel r2 with
          | some (cs, rest) => some ('\t' :: cs, rest)
          | none => none
        else if e = 'r' then
          match parseStrAux fuel r2 with
          | some (cs, rest) => some ('\r' :: cs, rest)
          | none => none
        else if e = 'b' then
          match parseStrAux fuel r2 with
          | some (cs, rest) => some ('\x08' :: cs, rest)
          | none => none
        else if e = 'f' then
          match parseStrAux fuel r2 with
          | some (cs, rest) => some ('\x0c' :: cs, rest)
          | none => none
        else if e = 'u' then
          match r2 with
          | h1 :: h2 :: h3 :: h4 :: r3 =>
            match hexVal h1, hexVal h2, hexVal h3, hexVal h4 with
            | some v1, some v2, some v3, some v4 =>
              let n := ((v1 * 16 + v2) * 16 + v3) * 16 + v4
              if n < 0xd800 || 0xe000 ≤ n then
                match parseStrAux fuel r3 with
                | some (cs, rest) => some (Char.ofNat n :: cs, rest)
                | none => none
              else none
            | _, _, _, _ => none
          | _ => none
        else none
    else if c.toNat < 32 then none
    else
      match parseStrAux fuel r with
      | some (cs, rest) => some (c :: cs, rest)
      | none => none

mutual

/-- One JSON value, leading whitespace allowed; returns the value and the
unconsumed rest. -/
def parseVal : Nat → List Char → Option (Json × List Char)
  | 0, _ => none
  | fuel + 1, l =>
    match dropJsonWs l with
    | [] => none
    | c :: r =>
      if c = '\x7b' then parseObj fuel r
      else if c = '[' then parseArr fuel r
      else if c = '"' then
        match parseStrAux (r.length + 1) r with
        | some (cs, rest) => some (.str (String.mk cs), rest)
        | none => none
      else if c = 't' then
        match dropLit ['r', 'u', 'e'] r with
        | some rest => some (.bool true, rest)
        | none => none
      else if c = 'f' then
        match dropLit ['a', 'l', 's', 'e'] r with
        | some rest => some (.bool false, rest)
        | none => none
      else if c = 'n' then
        match dropLit ['u', 'l', 'l'] r with
        | some rest => some (.null, rest)
        | none => none
      else if c = 'N' then
        match dropLit ['a', 'N'] r with
        | some rest => some (.num "NaN", rest)
        | none => none
      else if c = 'I' then
        match dropLit ['n', 'f', 'i', 'n', 'i', 't', 'y'] r with
        | some rest => some (.num "Infinity", rest)
        | none => none
      else if c = '-' then
        match r with
        | 'I' :: r2 =>
          match dropLit ['n', 'f', 'i', 'n', 'i', 't', 'y'] r2 with
          | some rest => some (.num "-Infinity", rest)
          | none => none
        | _ =>
          match parseNumCore r with
          | some (lex, rest) => some (.num (String.mk ('-' :: lex)), rest)
          | none => none
      else if isDigit c then
        match parseNumCore (c :: r) with
        | some (lex, rest) => some (.num (String.mk lex), rest)
        | none => none
      else none

/-- Object body after the opening brace. -/
def parseObj : Nat → List Char → Option (Json × List Char)
  | 0, _ => none
  | fuel + 1, l =>
    match dropJsonWs l with
    | '\x7d' :: r => some (.obj [], r)
    | l1 => parseMembers fuel l1 []

/-- Nonempty member list of an object, starting at a key. -/
def parseMembers : Nat → List Char → List (String × Json) →
    Option (Json × List Char)
  | 0, _, _ => none
  | fuel + 1, l, acc =>
    match l with
    | '"' :: r =>
      match parseStrAux (r.length + 1) r with
      | some (kcs, r2) =>
        match dropJsonWs r2 with
        | ':' :: r3 =>
          match parseVal fuel r3 with
          | some (v, r4) =>
            match dropJsonWs r4 with
            | ',' :: r5 => parseMembers fuel (dropJsonWs r5) (acc ++ [(String.mk kcs, v)])
            | '\x7d' :: r5 => some (.obj (acc ++ [(String.mk kcs, v)]), r5)
            | _ => none
          | none => none
        | _ => none
      | none => none
    | _ => none

/-- Array body after the opening bracket. -/
def parseArr : Nat → List Char → Option (Json × List Char)
  | 0, _ => none
  | fuel + 1, l =>
    match dropJsonWs l with
    | ']' :: r => some (.arr [], r)
    | l1 => parseElems fuel l1 []

/-- Nonempty element list of an array. -/
def parseElems : Nat → List Char → List Json → Option (Json × List Char)
  | 0, _, _ => none
  | fuel + 1, l, acc =>
    match parseVal fuel l with
    | some (v, r1) =>
      match dropJsonWs r1 with
      | ',' :: r2 => parseElems fuel r2 (acc ++ [v])
      | ']' :: r2 => some (.arr (acc ++ [v]), r2)
      | _ => none
    | none => none

end

/-- Model of `json.loads`: parse one value, allow trailing whitespace,
reject trailing data.  `none` models `json.JSONDecodeError`. -/
def pyLoads (s : String) : Option Json :=
  match parseVal (s.data.length + 1) s.data with
  | some (j, rest) => if dropJsonWs rest = [] then some j else none
  | none => none

/-!  ## `analyze_contract` (`app/services/ai_advisor.py`)

The engine client (`client.files.create`, `client.beta.threads.create`,
`client.beta.threads.runs.create_and_poll`, `client.beta.threads.messages
.list`, `client.files.delete`) is external; one call of `analyze_contract`
is modelled against an `EngineEnv` describing how each engine step would
behave during that call: either raising (the `Option String` slot carries
`str(e)`) or returning its value.  The assistant table `ASSISTANT_MAP` is
built from `os.getenv`, modelled by the parameter `ids` giving the
environment value (or absence) for each of the five configured keys.  The
function also returns a `Trace` counting how many times each engine
operation was started, so that the side-effect claims are statable. -/

/-- Count of engine operations started during one call: file uploads,
thread creations, runs, file deletions. -/
structure Trace where
  uploads : Nat
  threads : Nat
  runs : Nat
  deletes : Nat
deriving DecidableEq

/-- Engine behaviour for the single call under analysis.  An `Option String`
field of `some e` means that step, if reached, raises an exception whose
`str` is `e`; `none` means it succeeds with the corresponding value. -/
structure EngineEnv where
  fileId : String
  uploadExn : Option String
  threadId : String
  threadExn : Option String
  runStatus : String
  runExn : Option String
  rawText : String
  messagesExn : Option String
  deleteRaises : Bool

/-- The five keys of `ASSISTANT_MAP`. -/
def knownCategory (category : String) : Bool :=
  category = "REAL_ESTATE" || category = "WORK" || category = "CONSUMER" ||
    category = "NDA" || category = "GENERAL"

/-- `ASSISTANT_MAP.get(category)`: `os.getenv` of the mapped variable for
the five configured keys, `None` (missing key) otherwise. -/
def assistantLookup (ids : String → Option String) (category : String) :
    Option String :=
  if knownCategory category then ids category else none

/-- Python truthiness of `assistant_id` as used by `if not assistant_id:`:
false for `None` and for the empty string. -/
def truthyId : Option String → Bool
  | none => false
  | some s => if s = "" then false else true

/-- Line 35: `f'{{"error": "Assistant ID를 찾을 수 없습니다. (Category: {category})"}}'` -/
def unknownCatMsg (category : String) : String :=
  "\x7b\"error\": \"Assistant ID를 찾을 수 없습니다. (Category: " ++ category ++ ")\"\x7d"

/-- Line 77: `'{"error": "잘못된 카테고리입니다."}'` (unreachable in practice:
every key of `ASSISTANT_MAP` has an instruction branch). -/
def badCategoryMsg : String :=
  "\x7b\"error\": \"잘못된 카테고리입니다.\"\x7d"

/-- Line 132: `f'{{"error": "AI 분석 실패", "status": "{run.status}"}}'` -/
def statusErrMsg (status : String) : String :=
  "\x7b\"error\": \"AI 분석 실패\", \"status\": \"" ++ status ++ "\"\x7d"

/-- Line 136: `f'{{"error": "서버 내부 에러", "details": "{str(e)}"}}'` -/
def serverErrMsg (details : String) : String :=
  "\x7b\"error\": \"서버 내부 에러\", \"details\": \"" ++ details ++ "\"\x7d"

/-- `analyze_contract(file_path, category)`, returning the result string and
the side-effect trace.  Control flow follows the source: the assistant-id
truthiness guard, the instruction `elif` chain with its `else` return, then
the `try` block (upload, thread creation, run-and-poll, and on `'completed'`
the message fetch and sanitization), the non-success status return, the
broad `except Exception` turning `str(e)` into an error payload, and the
`finally` block which deletes the uploaded file exactly when `user_file_obj`
was set, swallowing any deletion error (which is why neither the result nor
the deletion count depends on `deleteRaises`). -/
def analyze_contract (ids : String → Option String) (env : EngineEnv)
    (category : String) : String × Trace :=
  if truthyId (assistantLookup ids category) = false then
    (unknownCatMsg category, ⟨0, 0, 0, 0⟩)
  else if knownCategory category = false then
    (badCategoryMsg, ⟨0, 0, 0, 0⟩)
  else
    match env.uploadExn with
    | some e => (serverErrMsg e, ⟨1, 0, 0, 0⟩)
    | none =>
      match env.threadExn with
      | some e => (serverErrMsg e, ⟨1, 1, 0, 1⟩)
      | none =>
        match env.runExn with
        | some e => (serverErrMsg e, ⟨1, 1, 1, 1⟩)
        | none =>
          if env.runStatus = "completed" then
            match env.messagesExn with
            | some e => (serverErrMsg e, ⟨1, 1, 1, 1⟩)
            | none => (sanitize env.rawText, ⟨1, 1, 1, 1⟩)
          else (statusErrMsg env.runStatus, ⟨1, 1, 1, 1⟩)

/-!  ## `_process_analysis` (`app/routers/general.py`)

Modelled from the AI result onward (the temp-file save of lines 72–74 and
the DB layer are assumed to succeed; the `finally` temp-file removal has no
observable effect on the returned value).  The gatekeeper of lines 80–90
runs before any DB write, so a rejection or an attribute error rolls back an
empty transaction and surfaces as an `HTTPException`; the normal path
commits the document/clause/analysis records and returns a
`DocumentResponse`. -/

/-- Outcome of the gatekeeper `try` block (lines 80–90). -/
inductive GateStep where
  /-- fell through: parse failure (`except json.JSONDecodeError: pass`) or a
  detected type other than the sentinel. -/
  | proceed
  /-- `raise HTTPException(status_code=400, detail=error_msg)`. -/
  | reject (detail : Json)
  /-- `.get` attribute access on a non-dict raised `AttributeError`. -/
  | attrFail

/-- Line 86 fallback message. -/
def defaultRejectMsg : Json := .str "유효한 계약서 파일이 아닙니다."

/-- The gatekeeper: `json.loads`, then
`result_dict.get("summary", {}).get("contract_type_detected", "")` compared
with `"NOT_A_CONTRACT"`.  A non-dict `json.loads` result, or a present
non-dict `"summary"` value, has no `.get` and raises `AttributeError`,
which the inner `except json.JSONDecodeError` does not catch.  A non-string
detected type is never `==` a string, so it falls through. -/
def gatekeeper (s : String) : GateStep :=
  match pyLoads s with
  | none => .proceed
  | some (.obj kvs) =>
    match objGetD kvs "summary" (.obj []) with
    | .obj skvs =>
      match objGetD skvs "contract_type_detected" (.str "") with
      | .str ct =>
        if ct = "NOT_A_CONTRACT" then
          .reject (objGetD skvs "overall_comment" defaultRejectMsg)
        else .proceed
      | _ => .proceed
    | _ => .attrFail
  | some _ => .attrFail

/-- Lines 93–107: category-specific report title. -/
def reportTitleFor (category : String) : String :=
  if category = "WORK" then "일터(Work) 법률 자문 리포트"
  else if category = "CONSUMER" then "소비자(Consumer) 권익 보호 리포트"
  else if category = "NDA" then "지식재산(IP) & 커리어 보호 리포트"
  else if category = "GENERAL" then "일반 법률 문서 분석 리포트"
  else "법률 자문 리포트"

/-- Lines 93–107: category-specific summary text. -/
def summaryTextFor (category : String) : String :=
  if category = "WORK" then "근로기준법 및 하도급법 기반 정밀 분석"
  else if category = "CONSUMER" then "소비자분쟁해결기준 및 방문판매법 기반 분석"
  else if category = "NDA" then "부정경쟁방지법 및 영업비밀 보호 판례 기반 분석"
  else if category = "GENERAL" then "민법(신의성실의 원칙) 및 약관규제법 기반 분석"
  else "AI 법률 자문 결과"

/-- Line 131 marker: `'"risk_level": "HIGH"'` — note the space after the
colon. -/
def riskMarker : String := "\"risk_level\": \"HIGH\""

/-- Does `pat` occur as a contiguous sublist (Python `in` on strings)? -/
def startsWithL : List Char → List Char → Bool
  | [], _ => true
  | _ :: _, [] => false
  | p :: ps, c :: cs => if p = c then startsWithL ps cs else false

/-- Substring containment, Python `pat in s`. -/
def containsSub (pat : List Char) : List Char → Bool
  | [] => startsWithL pat []
  | c :: rest => startsWithL pat (c :: rest) || containsSub pat rest

/-- Lines 130–132: risk level derived by scanning the raw AI output for the
literal marker. -/
def riskOf (aiResult : String) : String :=
  if containsSub riskMarker.data aiResult.data then "HIGH" else "LOW"

/-- Line 151: `risk_count=1 if risk_level == 'HIGH' else 0`. -/
def riskCountOf (aiResult : String) : Nat :=
  if riskOf aiResult = "HIGH" then 1 else 0

/-- The `ClauseAnalysis`-relevant record persisted on the normal path:
report title (clause title), summary text, derived risk level, and the AI
result string stored as `suggestion`. -/
structure SavedAnalysis where
  title : String
  summaryText : String
  riskLevel : String
  suggestion : String
deriving DecidableEq

/-- Fields persisted for a given category and AI result. -/
def savedFor (category aiResult : String) : SavedAnalysis :=
  ⟨reportTitleFor category, summaryTextFor category, riskOf aiResult,
    aiResult⟩

/-- Caller-visible result of `_process_analysis`. -/
inductive ProcResp where
  /-- normal return: committed records and a `DocumentResponse` with
  `risk_count`. -/
  | done (saved : SavedAnalysis) (riskCount : Nat)
  /-- a re-raised `HTTPException` (the gatekeeper's 400). -/
  | clientError (code : Nat) (detail : Json)
  /-- the broad handler's `HTTPException(status_code=500, ...)`. -/
  | serverError (code : Nat)

/-- Result plus transaction fate. -/
structure ProcOutcome where
  resp : ProcResp
  committed : Bool
  rolledBack : Bool

/-- Lines 79–160 of `_process_analysis`, given the string returned by
`analyze_contract`: gatekeeper, then title/summary selection, DB writes,
risk derivation and commit; an `HTTPException` is rolled back and re-raised
as is, any other exception is rolled back and wrapped into a 500. -/
def process_analysis_after (category aiResult : String) : ProcOutcome :=
  match gatekeeper aiResult with
  | .reject d => ⟨.clientError 400 d, false, true⟩
  | .attrFail => ⟨.serverError 500, false, true⟩
  | .proceed =>
    ⟨.done (savedFor category aiResult) (riskCountOf aiResult), true, false⟩

/-- Whole `_process_analysis` call: step 2 (the `analyze_contract` call)
composed with the rest. -/
def process_analysis (ids : String → Option String) (env : EngineEnv)
    (category : String) : ProcOutcome :=
  process_analysis_after category (analyze_contract ids env category).1

/-!  ## Sanitizer lemmas

A string of the shape `{ … }` — first character `'{'`, last character `'}'`,
no backtick, no `'【'` — is fixed by every stage of the sanitizer.  These
lemmas drive the idempotence claim (C7) and the citation-removal claim
(C9). -/

theorem dropLeadWs_cons_of_not_ws {c : Char} (l : List Char)
    (h : pyWs c = false) : dropLeadWs (c :: l) = c :: l := by
  simp [dropLeadWs, h]

theorem dropLeadWs_subset {l : List Char} {x : Char}
    (h : x ∈ dropLeadWs l) : x ∈ l := by
  induction l with
  | nil => simp [dropLeadWs] at h
  | cons c r ih =>
    by_cases hc : pyWs c = true
    · simp only [dropLeadWs, hc, if_true] at h
      exact List.mem_cons_of_mem _ (ih h)
    · simp only [dropLeadWs, hc, if_false] at h
      exact h

theorem stripL_shape (xs : List Char) :
    stripL ('\x7b' :: xs ++ ['\x7d']) = '\x7b' :: xs ++ ['\x7d'] := by
  have hb : pyWs '\x7b' = false := by decide
  have hd : pyWs '\x7d' = false := by decide
  have h1 : dropLeadWs ('\x7b' :: xs ++ ['\x7d']) = '\x7b' :: xs ++ ['\x7d'] :=
    dropLeadWs_cons_of_not_ws _ hb
  have h2 : ('\x7b' :: xs ++ ['\x7d']).reverse
      = '\x7d' :: (xs.reverse ++ ['\x7b']) := by
    simp
  rw [stripL, h1, h2, dropLeadWs_cons_of_not_ws _ hd, ← h2,
    List.reverse_reverse]

theorem matchFenceOpen_none {c : Char} (rest : List Char) (b : Bool)
    (hc : c ≠ '\x60') : matchFenceOpen (c :: rest) b = none := by
  cases b with
  | false => rfl
  | true => simp [matchFenceOpen, fenceHead, dropLit, hc]

theorem matchFenceClose_none {l : List Char} (h : '\x60' ∉ l) :
    matchFenceClose l = none := by
  unfold matchFenceClose
  cases hdl : dropLeadWs l with
  | nil => rfl
  | cons d r =>
    have hd : d ∈ l := dropLeadWs_subset (hdl ▸ List.mem_cons_self d r)
    have hne : d ≠ '\x60' := fun he => h (he ▸ hd)
    simp [fenceTail, dropLit, hne]

theorem stripFencesAux_id (fuel : Nat) :
    ∀ (l : List Char) (b : Bool), '\x60' ∉ l → stripFencesAux fuel l b = l := by
  induction fuel with
  | zero => intro l b _; rfl
  | succ f ih =>
    intro l b h
    match l with
    | [] => rfl
    | c :: rest =>
      have hc : c ≠ '\x60' := fun he => h (he ▸ List.mem_cons_self c rest)
      have hrest : '\x60' ∉ rest := fun hm => h (List.mem_cons_of_mem _ hm)
      rw [stripFencesAux, matchFenceOpen_none rest b hc,
        matchFenceClose_none h]
      exact congrArg (c :: ·) (ih rest _ hrest)

theorem stripFencesL_id {l : List Char} (h : '\x60' ∉ l) :
    stripFencesL l = l :=
  stripFencesAux_id _ l true h

theorem removeCitationsAux_id (fuel : Nat) :
    ∀ l : List Char, '【' ∉ l → removeCitationsAux fuel l = l := by
  induction fuel with
  | zero => intro l _; rfl
  | succ f ih =>
    intro l h
    match l with
    | [] => rfl
    | c :: rest =>
      have hc : c ≠ '【' := fun he => h (he ▸ List.mem_cons_self c rest)
      have hrest : '【' ∉ rest := fun hm => h (List.mem_cons_of_mem _ hm)
      rw [removeCitationsAux, if_neg hc]
      exact congrArg (c :: ·) (ih rest hrest)

theorem removeCitationsL_id {l : List Char} (h : '【' ∉ l) :
    removeCitationsL l = l :=
  removeCitationsAux_id _ l h

theorem findCloseIdx_marker (b : List Char) :
    ∀ m : List Char, '】' ∉ m → '\n' ∉ m →
      findCloseIdx (m ++ '】' :: b) = some m.length := by
  intro m
  induction m with
  | nil => intro _ _; simp [findCloseIdx]
  | cons c m' ih =>
    intro h1 h2
    have hc1 : c ≠ '】' := fun he => h1 (he ▸ List.mem_cons_self c m')
    have hc2 : c ≠ '\n' := fun he => h2 (he ▸ List.mem_cons_self c m')
    have hm1 : '】' ∉ m' := fun hm => h1 (List.mem_cons_of_mem _ hm)
    have hm2 : '\n' ∉ m' := fun hm => h2 (List.mem_cons_of_mem _ hm)
    simp only [List.cons_append, findCloseIdx, if_neg hc1, if_neg hc2,
      List.append_eq, ih hm1 hm2, Option.map_some', List.length_cons]

theorem drop_after_marker (m b : List Char) :
    (m ++ '】' :: b).drop (m.length + 1) = b := by
  induction m with
  | nil => rfl
  | cons c m' ih => simp [ih]

/-- Removing an embedded single-line citation marker from between two
marker-free fragments gives exactly their concatenation. -/
theorem removeCitationsAux_marker (A B m : List Char)
    (hA : '【' ∉ A) (hB : '【' ∉ B) (hm1 : '】' ∉ m) (hm2 : '\n' ∉ m) :
    ∀ fuel : Nat, A.length + 1 ≤ fuel →
      removeCitationsAux fuel (A ++ '【' :: (m ++ '】' :: B)) = A ++ B := by
  induction A with
  | nil =>
    intro fuel hfuel
    match fuel, hfuel with
    | f + 1, _ =>
      rw [List.nil_append, removeCitationsAux, if_pos rfl,
        findCloseIdx_marker B m hm1 hm2]
      show removeCitationsAux f (List.drop (m.length + 1) (m ++ '】' :: B))
          = [] ++ B
      rw [drop_after_marker, removeCitationsAux_id f B hB, List.nil_append]
  | cons c A' ih =>
    intro fuel hfuel
    have hc : c ≠ '【' := fun he => hA (he ▸ List.mem_cons_self c A')
    have hA' : '【' ∉ A' := fun hm => hA (List.mem_cons_of_mem _ hm)
    match fuel, hfuel with
    | f + 1, hf =>
      rw [List.cons_append, removeCitationsAux, if_neg hc, List.cons_append]
      exact congrArg (c :: ·)
        (ih hA' f (by simpa [Nat.succ_le_succ_iff] using hf))

theorem idxOfLast_shape (xs : List Char) :
    idxOfLast '\x7d' ('\x7b' :: xs ++ ['\x7d']) = some (xs.length + 1) := by
  have h1 : ('\x7b' :: xs ++ ['\x7d']).reverse
      = '\x7d' :: (xs.reverse ++ ['\x7b']) := by simp
  have h2 : idxOfFirst '\x7d' ('\x7d' :: (xs.reverse ++ ['\x7b'])) = some 0 := by
    simp [idxOfFirst]
  have h3 : ('\x7b' :: xs ++ ['\x7d']).length = xs.length + 2 := by simp
  rw [idxOfLast, h1, h2]
  simp only [Option.map_some', h3]
  exact congrArg some (by omega)

theorem extractBracesL_shape (xs : List Char) :
    extractBracesL ('\x7b' :: xs ++ ['\x7d']) = '\x7b' :: xs ++ ['\x7d'] := by
  have h1 : idxOfFirst '\x7b' ('\x7b' :: xs ++ ['\x7d']) = some 0 := by
    simp [idxOfFirst]
  have hlen : ('\x7b' :: xs ++ ['\x7d']).length = xs.length + 2 := by simp
  rw [extractBracesL, h1, idxOfLast_shape]
  show (if 0 < xs.length + 1 then
      List.take (xs.length + 1 - 0 + 1) (List.drop 0 ('\x7b' :: xs ++ ['\x7d']))
    else '\x7b' :: xs ++ ['\x7d']) = '\x7b' :: xs ++ ['\x7d']
  rw [if_pos (Nat.succ_pos _), List.drop_zero]
  have harith : xs.length + 1 - 0 + 1 = ('\x7b' :: xs ++ ['\x7d']).length := by
    rw [hlen]; omega
  rw [harith, List.take_length]

/-- A `{ … }`-shaped string with no backticks and no citation-opening
bracket is a fixed point of the whole sanitizer. -/
theorem sanitizeL_clean (xs : List Char) (hbt : '\x60' ∉ xs)
    (hop : '【' ∉ xs) :
    sanitizeL ('\x7b' :: xs ++ ['\x7d']) = '\x7b' :: xs ++ ['\x7d'] := by
  have hbt' : '\x60' ∉ '\x7b' :: xs ++ ['\x7d'] := by
    intro hm
    rcases List.mem_cons.1 hm with h | h
    · exact absurd h.symm (by decide)
    · rcases List.mem_append.1 h with h | h
      · exact hbt h
      · exact absurd (List.mem_singleton.1 h).symm (by decide)
  have hop' : '【' ∉ '\x7b' :: xs ++ ['\x7d'] := by
    intro hm
    rcases List.mem_cons.1 hm with h | h
    · exact absurd h.symm (by decide)
    · rcases List.mem_append.1 h with h | h
      · exact hop h
      · exact absurd (List.mem_singleton.1 h).symm (by decide)
  rw [sanitizeL, stripL_shape, stripFencesL_id hbt', removeCitationsL_id hop',
    extractBracesL_shape]

/-!  ## Claims about the sanitizer (C7, C8, C9) -/

/-- Claim C8: on the raw text consisting of a json-labelled fenced code
block wrapping `{"a":1}` — the string `"```json\n{\"a\":1}\n```"` — the
sanitization transform of `analyze_contract` returns exactly the string
`{"a":1}`. -/
theorem claim_C8 :
    sanitize "\x60\x60\x60json\n\x7b\"a\":1\x7d\n\x60\x60\x60"
      = "\x7b\"a\":1\x7d" := by
  rfl

/-- Claim C7: the sanitization transform is idempotent on every
already-clean JSON text, i.e. a string that is a brace-delimited JSON
object, carries no code-fence backticks and no citation markers: applying
it twice gives the same result as applying it once. -/
theorem claim_C7 (xs : List Char) (hbt : '\x60' ∉ xs) (hop : '【' ∉ xs)
    (_hjson : (pyLoads (String.mk ('\x7b' :: xs ++ ['\x7d']))).isSome = true) :
    sanitize (sanitize (String.mk ('\x7b' :: xs ++ ['\x7d'])))
      = sanitize (String.mk ('\x7b' :: xs ++ ['\x7d'])) := by
  have hfix : sanitize (String.mk ('\x7b' :: xs ++ ['\x7d']))
      = String.mk ('\x7b' :: xs ++ ['\x7d']) :=
    congrArg String.mk (sanitizeL_clean xs hbt hop)
  rw [hfix]
  exact hfix

/-- Witness for C7 at the already-clean JSON text `{"a":1}`. -/
theorem claim_C7_witness :
    sanitize (sanitize (String.mk ('\x7b' :: "\"a\":1".data ++ ['\x7d'])))
      = sanitize (String.mk ('\x7b' :: "\"a\":1".data ++ ['\x7d'])) :=
  claim_C7 "\"a\":1".data (by decide) (by decide) (by rfl)

/-- Membership in the marker-bearing shape reduces to membership in its
fragments. -/
theorem notMem_marked_shape {c : Char} {xs ys m : List Char}
    (h1 : c ≠ '\x7b') (h2 : c ≠ '\x7d') (h3 : c ≠ '【') (h4 : c ≠ '】')
    (hxs : c ∉ xs) (hys : c ∉ ys) (hm : c ∉ m) :
    c ∉ '\x7b' :: (xs ++ '【' :: m ++ '】' :: ys) ++ ['\x7d'] := by
  intro hmem
  simp only [List.cons_append, List.mem_cons, List.mem_append,
    List.mem_singleton] at hmem
  tauto

/-- Claim C9: for a raw text that is a valid JSON object except for one
embedded citation marker `【…】` interleaved inside it (the marker body on a
single line and free of the closing bracket, the object text free of
backticks and further markers), the sanitization transform removes the
marker and the result parses as JSON — indeed to the very value of the
object without the marker. -/
theorem claim_C9 (xs ys m : List Char) (kvs : List (String × Json))
    (hjson : pyLoads (String.mk ('\x7b' :: (xs ++ ys) ++ ['\x7d']))
      = some (.obj kvs))
    (hbt1 : '\x60' ∉ xs) (hbt2 : '\x60' ∉ ys) (hbt3 : '\x60' ∉ m)
    (hop1 : '【' ∉ xs) (hop2 : '【' ∉ ys)
    (hcm : '】' ∉ m) (hnm : '\n' ∉ m) :
    pyLoads (sanitize
        (String.mk ('\x7b' :: (xs ++ '【' :: m ++ '】' :: ys) ++ ['\x7d'])))
      = some (.obj kvs) := by
  have hbt' : '\x60' ∉ '\x7b' :: (xs ++ '【' :: m ++ '】' :: ys) ++ ['\x7d'] :=
    notMem_marked_shape (by decide) (by decide) (by decide) (by decide)
      hbt1 hbt2 hbt3
  have hA : '【' ∉ '\x7b' :: xs := by
    intro hm0
    rcases List.mem_cons.1 hm0 with h | h
    · exact absurd h.symm (by decide)
    · exact hop1 h
  have hB : '【' ∉ ys ++ ['\x7d'] := by
    intro hm0
    rcases List.mem_append.1 hm0 with h | h
    · exact hop2 h
    · exact absurd (List.mem_singleton.1 h).symm (by decide)
  have hshape : '\x7b' :: (xs ++ '【' :: m ++ '】' :: ys) ++ ['\x7d']
      = ('\x7b' :: xs) ++ '【' :: (m ++ '】' :: (ys ++ ['\x7d'])) := by
    simp
  have hcat : ('\x7b' :: xs) ++ (ys ++ ['\x7d'])
      = '\x7b' :: (xs ++ ys) ++ ['\x7d'] := by
    simp
  have hrc : removeCitationsL
      ('\x7b' :: (xs ++ '【' :: m ++ '】' :: ys) ++ ['\x7d'])
      = '\x7b' :: (xs ++ ys) ++ ['\x7d'] := by
    rw [removeCitationsL, hshape,
      removeCitationsAux_marker ('\x7b' :: xs) (ys ++ ['\x7d']) m hA hB hcm hnm
        _ (by simp only [List.length_cons, List.length_append]; omega),
      hcat]
  have hsan : sanitizeL ('\x7b' :: (xs ++ '【' :: m ++ '】' :: ys) ++ ['\x7d'])
      = '\x7b' :: (xs ++ ys) ++ ['\x7d'] := by
    rw [sanitizeL, stripL_shape, stripFencesL_id hbt', hrc,
      extractBracesL_shape]
  calc pyLoads (sanitize
        (String.mk ('\x7b' :: (xs ++ '【' :: m ++ '】' :: ys) ++ ['\x7d'])))
      = pyLoads (String.mk ('\x7b' :: (xs ++ ys) ++ ['\x7d'])) := by
        rw [sanitize]
        exact congrArg (fun l => pyLoads (String.mk l)) hsan
    _ = some (.obj kvs) := hjson

/-- Witness for C9: the marker `【4:0†source】` embedded in `{"a":1}`. -/
theorem claim_C9_witness :
    pyLoads (sanitize (String.mk
        ('\x7b' :: ("\"a\":1".data ++ '【' :: "4:0†source".data
          ++ '】' :: [].append []) ++ ['\x7d'])))
      = some (.obj [("a", Json.num "1")]) :=
  claim_C9 "\"a\":1".data [] "4:0†source".data [("a", Json.num "1")]
    (by rfl) (by decide) (by decide) (by decide) (by decide) (by decide)
    (by decide) (by decide)

/-!  ## Claims about `analyze_contract` (C4, C1, C6) -/

/-- Claim C4: for every category value the registry cannot resolve (its
`ASSISTANT_MAP` lookup is `None` or empty), `analyze_contract` fails before
any engine interaction — no upload, no thread, no run, no deletion — and
its result is entirely independent of the engine environment (resolution is
deterministic and side-effect free). -/
theorem claim_C4 (ids : String → Option String) (env env' : EngineEnv)
    (category : String)
    (h : truthyId (assistantLookup ids category) = false) :
    analyze_contract ids env category = (unknownCatMsg category, ⟨0, 0, 0, 0⟩)
      ∧ analyze_contract ids env category
          = analyze_contract ids env' category := by
  constructor
  · simp [analyze_contract, h]
  · simp [analyze_contract, h]

/-- Witness for C4 at the unknown category `"CUSTOM"` and two distinct
engine environments. -/
theorem claim_C4_witness :
    analyze_contract (fun _ => none)
        ⟨"f1", none, "t1", none, "completed", none, "x", none, false⟩ "CUSTOM"
      = (unknownCatMsg "CUSTOM", ⟨0, 0, 0, 0⟩)
    ∧ analyze_contract (fun _ => none)
        ⟨"f1", none, "t1", none, "completed", none, "x", none, false⟩ "CUSTOM"
      = analyze_contract (fun _ => none)
        ⟨"f2", some "boom", "t2", none, "failed", none, "y", none, true⟩
        "CUSTOM" :=
  claim_C4 (fun _ => none)
    ⟨"f1", none, "t1", none, "completed", none, "x", none, false⟩
    ⟨"f2", some "boom", "t2", none, "failed", none, "y", none, true⟩
    "CUSTOM" (by rfl)

/-- A resolvable category is one of the five configured keys. -/
theorem knownCategory_of_truthy {ids : String → Option String}
    {category : String}
    (hres : truthyId (assistantLookup ids category) = true) :
    knownCategory category = true := by
  cases hkc : knownCategory category with
  | true => rfl
  | false =>
    rw [assistantLookup, hkc] at hres
    simp [truthyId] at hres

/-- The bare `try/except: pass` around `client.files.delete` swallows any
deletion error, so the delete step never influences the returned value. -/
theorem analyze_contract_delete_error_irrelevant
    (ids : String → Option String) (env : EngineEnv) (category : String)
    (b : Bool) :
    analyze_contract ids { env with deleteRaises := b } category
      = analyze_contract ids env category := by
  cases env
  rfl

/-- Claim C1 (amended): for every call with a resolved category in which
the artifact upload succeeded, the artifact is deleted exactly once before
the call returns, on every exit path, and an error raised by the deletion
itself never alters the returned result.  (The spec's stronger "deletion is
invoked exactly once for any call" is refuted by
`claim_C1_counterexample`.) -/
theorem claim_C1 (ids : String → Option String) (env : EngineEnv)
    (category : String)
    (hres : truthyId (assistantLookup ids category) = true)
    (hup : env.uploadExn = none) :
    (analyze_contract ids env category).2.deletes = 1
      ∧ (analyze_contract ids { env with deleteRaises := true } category).1
          = (analyze_contract ids { env with deleteRaises := false }
              category).1 := by
  have hknown := knownCategory_of_truthy hres
  constructor
  · cases hte : env.threadExn with
    | some e => simp [analyze_contract, hres, hknown, hup, hte]
    | none =>
      cases hre : env.runExn with
      | some e => simp [analyze_contract, hres, hknown, hup, hte, hre]
      | none =>
        by_cases hrs : env.runStatus = "completed"
        · cases hme : env.messagesExn with
          | some e =>
            simp [analyze_contract, hres, hknown, hup, hte, hre, hme, hrs]
          | none =>
            simp [analyze_contract, hres, hknown, hup, hte, hre, hme, hrs]
        · simp [analyze_contract, hres, hknown, hup, hte, hre, hrs]
  · exact congrArg (fun p => p.1)
      ((analyze_contract_delete_error_irrelevant ids env category true).trans
        (analyze_contract_delete_error_irrelevant ids env category
          false).symm)

/-- Counterexample to C1's universal form: a call whose upload step raises
performs no deletion at all (`user_file_obj` is never set, so the `finally`
block skips `client.files.delete`). -/
theorem claim_C1_counterexample :
    (analyze_contract (fun _ => some "asst_1")
        ⟨"f1", some "disk full", "t1", none, "completed", none, "x", none,
          false⟩ "WORK").2.deletes ≠ 1 := by
  decide

/-- Witness for C1 on a run that ends in a non-success terminal status. -/
theorem claim_C1_witness :
    (analyze_contract (fun _ => some "asst_1")
        ⟨"f1", none, "t1", none, "failed", none, "x", none, false⟩
        "WORK").2.deletes = 1
      ∧ (analyze_contract (fun _ => some "asst_1")
          { (⟨"f1", none, "t1", none, "failed", none, "x", none, false⟩ :
              EngineEnv) with deleteRaises := true } "WORK").1
        = (analyze_contract (fun _ => some "asst_1")
          { (⟨"f1", none, "t1", none, "failed", none, "x", none, false⟩ :
              EngineEnv) with deleteRaises := false } "WORK").1 :=
  claim_C1 (fun _ => some "asst_1")
    ⟨"f1", none, "t1", none, "failed", none, "x", none, false⟩
    "WORK" (by rfl) (by rfl)

/-- Claim C6: with a resolved category, every failing engine interaction —
an exception in upload, thread creation, run-and-poll or message retrieval,
or a terminal run status other than `'completed'` — makes
`analyze_contract` return normally with the error-shaped JSON string that
embeds the exception detail (`{"error": "서버 내부 에러", "details": …}`) or
the terminal status (`{"error": "AI 분석 실패", "status": …}`); the broad
`except Exception` guarantees no such failure propagates as a raised
exception (in the model: the function is total and these equations give its
value on every failure). -/
theorem claim_C6 (ids : String → Option String) (env : EngineEnv)
    (category : String)
    (hres : truthyId (assistantLookup ids category) = true) :
    (∀ e, env.uploadExn = some e →
        (analyze_contract ids env category).1 = serverErrMsg e)
  ∧ (∀ e, env.uploadExn = none → env.threadExn = some e →
        (analyze_contract ids env category).1 = serverErrMsg e)
  ∧ (∀ e, env.uploadExn = none → env.threadExn = none →
        env.runExn = some e →
        (analyze_contract ids env category).1 = serverErrMsg e)
  ∧ (env.uploadExn = none → env.threadExn = none → env.runExn = none →
        env.runStatus ≠ "completed" →
        (analyze_contract ids env category).1 = statusErrMsg env.runStatus)
  ∧ (∀ e, env.uploadExn = none → env.threadExn = none → env.runExn = none →
        env.runStatus = "completed" → env.messagesExn = some e →
        (analyze_contract ids env category).1 = serverErrMsg e) := by
  have hknown := knownCategory_of_truthy hres
  refine ⟨?_, ?_, ?_, ?_, ?_⟩
  · intro e hup
    simp [analyze_contract, hres, hknown, hup]
  · intro e hup hte
    simp [analyze_contract, hres, hknown, hup, hte]
  · intro e hup hte hre
    simp [analyze_contract, hres, hknown, hup, hte, hre]
  · intro hup hte hre hrs
    simp [analyze_contract, hres, hknown, hup, hte, hre, hrs]
  · intro e hup hte hre hrs hme
    simp [analyze_contract, hres, hknown, hup, hte, hre, hrs, hme]

/-- Witness for C6: a run that terminates with status `'expired'` yields
the status-embedding error payload. -/
theorem claim_C6_witness :
    (analyze_contract (fun _ => some "asst_1")
        ⟨"f1", none, "t1", none, "expired", none, "x", none, false⟩
        "NDA").1
      = statusErrMsg "expired" :=
  (claim_C6 (fun _ => some "asst_1")
    ⟨"f1", none, "t1", none, "expired", none, "x", none, false⟩
    "NDA" (by rfl)).2.2.2.1 (by rfl) (by rfl) (by rfl) (by decide)

/-!  ## Claims about `_process_analysis` (C2, C10, C3, C5) -/

/-- Is the decoded value a Python dict (the only shape with a `.get`)? -/
def isObj : Json → Bool
  | .obj _ => true
  | _ => false

/-- Claim C2: the gatekeeper step of `_process_analysis` (i) proceeds
silently with the unparsed string when `json.loads` fails, (ii) aborts the
whole call with an HTTP 400 carrying `summary.overall_comment` (or the
default message) when the parsed summary's detected type equals
`"NOT_A_CONTRACT"`, and (iii) completes normally, returning the result, for
every other detected-type value. -/
theorem claim_C2 (category s : String) :
    (pyLoads s = none →
        process_analysis_after category s
          = ⟨.done (savedFor category s) (riskCountOf s), true, false⟩)
  ∧ (∀ kvs skvs, pyLoads s = some (.obj kvs) →
        objGetD kvs "summary" (.obj []) = .obj skvs →
        objGetD skvs "contract_type_detected" (.str "")
          = .str "NOT_A_CONTRACT" →
        process_analysis_after category s
          = ⟨.clientError 400 (objGetD skvs "overall_comment"
              defaultRejectMsg), false, true⟩)
  ∧ (∀ kvs skvs v, pyLoads s = some (.obj kvs) →
        objGetD kvs "summary" (.obj []) = .obj skvs →
        objGetD skvs "contract_type_detected" (.str "") = v →
        v ≠ .str "NOT_A_CONTRACT" →
        process_analysis_after category s
          = ⟨.done (savedFor category s) (riskCountOf s), true, false⟩) := by
  refine ⟨?_, ?_, ?_⟩
  · intro h
    simp [process_analysis_after, gatekeeper, h]
  · intro kvs skvs h1 h2 h3
    simp [process_analysis_after, gatekeeper, h1, h2, h3]
  · intro kvs skvs v h1 h2 h3 hne
    cases v with
    | str ct =>
      have hct : ct ≠ "NOT_A_CONTRACT" := fun he => hne (by rw [he])
      simp [process_analysis_after, gatekeeper, h1, h2, h3, hct]
    | null => simp [process_analysis_after, gatekeeper, h1, h2, h3]
    | bool b => simp [process_analysis_after, gatekeeper, h1, h2, h3]
    | num lexeme => simp [process_analysis_after, gatekeeper, h1, h2, h3]
    | arr elems => simp [process_analysis_after, gatekeeper, h1, h2, h3]
    | obj members => simp [process_analysis_after, gatekeeper, h1, h2, h3]

/-- Witness for C2 on a `NOT_A_CONTRACT` summary with comment `"X"`. -/
theorem claim_C2_witness :
    process_analysis_after "GENERAL"
        "\x7b\"summary\": \x7b\"contract_type_detected\": \"NOT_A_CONTRACT\", \"overall_comment\": \"X\"\x7d\x7d"
      = ⟨.clientError 400 (.str "X"), false, true⟩ :=
  (claim_C2 "GENERAL"
      "\x7b\"summary\": \x7b\"contract_type_detected\": \"NOT_A_CONTRACT\", \"overall_comment\": \"X\"\x7d\x7d").2.1
    [("summary", Json.obj [("contract_type_detected",
        Json.str "NOT_A_CONTRACT"), ("overall_comment", Json.str "X")])]
    [("contract_type_detected", Json.str "NOT_A_CONTRACT"),
      ("overall_comment", Json.str "X")]
    (by rfl) (by rfl) (by rfl)

/-- Claim C10: the gatekeeper is permissive only for strings that fail JSON
parsing.  When the output parses but its top level is not an object, or its
`"summary"` value is present and not an object, the `.get` attribute access
raises, the broad handler rolls the transaction back, and the call fails
with a 500 server error. -/
theorem claim_C10 (category s : String) :
    (∀ j, pyLoads s = some j → isObj j = false →
        process_analysis_after category s
          = ⟨.serverError 500, false, true⟩)
  ∧ (∀ kvs v, pyLoads s = some (.obj kvs) →
        objGetD kvs "summary" (.obj []) = v → isObj v = false →
        process_analysis_after category s
          = ⟨.serverError 500, false, true⟩) := by
  constructor
  · intro j h1 h2
    cases j with
    | obj members => simp [isObj] at h2
    | null => simp [process_analysis_after, gatekeeper, h1]
    | bool b => simp [process_analysis_after, gatekeeper, h1]
    | num lexeme => simp [process_analysis_after, gatekeeper, h1]
    | str t => simp [process_analysis_after, gatekeeper, h1]
    | arr elems => simp [process_analysis_after, gatekeeper, h1]
  · intro kvs v h1 h2 h3
    cases v with
    | obj members => simp [isObj] at h3
    | null => simp [process_analysis_after, gatekeeper, h1, h2]
    | bool b => simp [process_analysis_after, gatekeeper, h1, h2]
    | num lexeme => simp [process_analysis_after, gatekeeper, h1, h2]
    | str t => simp [process_analysis_after, gatekeeper, h1, h2]
    | arr elems => simp [process_analysis_after, gatekeeper, h1, h2]

/-- Witness for C10: a top-level JSON array yields the 500 outcome. -/
theorem claim_C10_witness :
    process_analysis_after "WORK" "[1]" = ⟨.serverError 500, false, true⟩ :=
  (claim_C10 "WORK" "[1]").1 (Json.arr [Json.num "1"]) (by rfl) (by rfl)

/-- The compact engine response of the C3 scenario. -/
def compactHigh : String := "\x7b\"risk_level\":\"HIGH\",\"clauses\":[]\x7d"

/-- The C3 engine environment: a completed run whose first response text is
exactly `compactHigh`. -/
def envC3 : EngineEnv :=
  ⟨"file_1", none, "thread_1", none, "completed", none, compactHigh, none,
    false⟩

/-- Counterexample to C3: on the completed run with response text exactly
`{"risk_level":"HIGH","clauses":[]}` the orchestrator does return the string
unchanged, but the persistence step derives risk level `"LOW"`, not
`"HIGH"`: the marker it scans for, `'"risk_level": "HIGH"'`, has a space
after the colon and is absent from the compact string. -/
theorem claim_C3_counterexample :
    (analyze_contract (fun c => some ("asst_" ++ c)) envC3 "WORK").1
        = compactHigh
      ∧ riskOf compactHigh = "LOW"
      ∧ ("LOW" : String) ≠ "HIGH" := by
  refine ⟨by rfl, by rfl, by decide⟩

/-- Claim C3 (amended): in the end-to-end scenario — employment category,
run completed, response text exactly `{"risk_level":"HIGH","clauses":[]}` —
the orchestrator returns that string unchanged (it is already clean), but
the persistence step derives risk level `LOW`, because the literal marker
substring it scans for (which contains a space after the colon) is absent
from the returned string; the record is committed with `risk_count = 0`. -/
theorem claim_C3 :
    (analyze_contract (fun c => some ("asst_" ++ c)) envC3 "WORK").1
        = compactHigh
      ∧ containsSub riskMarker.data compactHigh.data = false
      ∧ (savedFor "WORK" compactHigh).riskLevel = "LOW"
      ∧ process_analysis (fun c => some ("asst_" ++ c)) envC3 "WORK"
          = ⟨.done (savedFor "WORK" compactHigh) 0, true, false⟩ := by
  refine ⟨by rfl, by rfl, by rfl, by rfl⟩

/-- The C5 engine environment (never reached on the unresolved-category
path). -/
def envC5 : EngineEnv :=
  ⟨"f", none, "t", none, "completed", none, "x", none, false⟩

/-- Counterexample to C5: with no assistant id configured for `"WORK"`, the
whole `_process_analysis` call returns an ordinary committed success
result — the error-shaped string is stored as the analysis suggestion with
risk `LOW` — and no caller-visible client error is raised. -/
theorem claim_C5_counterexample :
    process_analysis (fun _ => none) envC5 "WORK"
        = ⟨.done (savedFor "WORK" (unknownCatMsg "WORK")) 0, true, false⟩
      ∧ ¬ ∃ code detail,
          (process_analysis (fun _ => none) envC5 "WORK").resp
            = ProcResp.clientError code detail := by
  constructor
  · rfl
  · rintro ⟨code, detail, h⟩
    rw [show (process_analysis (fun _ => none) envC5 "WORK").resp
        = ProcResp.done (savedFor "WORK" (unknownCatMsg "WORK")) 0
      from rfl] at h
    exact ProcResp.noConfusion h

/-- Claim C5 (amended): for the categories the routers actually pass, an
unresolved assistant id is *not* surfaced as a client error: the
error-shaped JSON string from `analyze_contract` flows through the
gatekeeper (it parses, has no `summary`), is persisted as the analysis
suggestion, and the call commits and returns an ordinary success response
with risk level `LOW`. -/
theorem claim_C5 (ids : String → Option String) (env : EngineEnv)
    (category : String)
    (hcat : category = "WORK" ∨ category = "CONSUMER" ∨ category = "NDA"
      ∨ category = "GENERAL")
    (hres : truthyId (assistantLookup ids category) = false) :
    process_analysis ids env category
      = ⟨.done (savedFor category (unknownCatMsg category)) 0, true,
          false⟩ := by
  have hr : (analyze_contract ids env category).1 = unknownCatMsg category := by
    simp [analyze_contract, hres]
  rw [process_analysis, hr]
  rcases hcat with h | h | h | h <;> subst h <;> rfl

/-- Witness for C5 at category `"CONSUMER"` with an empty environment
table. -/
theorem claim_C5_witness :
    process_analysis (fun _ => none) envC5 "CONSUMER"
      = ⟨.done (savedFor "CONSUMER" (unknownCatMsg "CONSUMER")) 0, true,
          false⟩ :=
  claim_C5 (fun _ => none) envC5 "CONSUMER" (Or.inr (Or.inl rfl)) (by rfl)

end Back
